import Mathlib

/-!
Verification of the muse-js session orchestrator (`src/muse.ts`) against its
natural-language specification.

The embedding below models, faithfully to the TypeScript source:

* the timestamp reconstructor `MuseClient.getTimestamp` (lines 156-179),
  including the 16-bit counter unwrap loop, over exact rationals `ℚ`
  (every quantity involved is a dyadic rational — `READING_DELTA` is
  `1000 * 12 / 256 = 375/8` — and the magnitudes stay far below `2^53`,
  so IEEE double arithmetic in the source computes these values exactly);
* the single, client-wide sequencing state `lastIndex` / `lastTimestamp`
  (lines 55-56) — note that the source keeps ONE such pair on the client,
  shared by every EEG characteristic;
* the EEG multiplexer (lines 98-116): each arriving notification is mapped
  to `(electrode, getTimestamp index)` against that shared state;
* the connect / disconnect lifecycle (lines 58-118, 147-154) and the
  `gattserverdisconnected` handler (lines 70-73), as a small state machine
  over an explicit `ClientState` with a log of `connectionStatus` emissions;
* the `start` / `pause` / `resume` command writes (lines 124-139) as a
  trace of issue/complete events (each `await`ed write completes before
  the next statement runs).
-/

namespace Muse

/-- `EEG_FREQUENCY` constant of the source (256 Hz). -/
def EEG_FREQUENCY : ℕ := 256

/-- `SAMPLES_PER_READING` local constant of `getTimestamp` (12). -/
def SAMPLES_PER_READING : ℕ := 12

/-- `READING_DELTA = 1000 * (1.0 / EEG_FREQUENCY) * SAMPLES_PER_READING`,
computed exactly in `ℚ` (the source's double computation is exact here). -/
def READING_DELTA : ℚ := 1000 * (1 / (EEG_FREQUENCY : ℚ)) * (SAMPLES_PER_READING : ℚ)

/-- The client-wide sequencing state: `lastIndex` / `lastTimestamp` fields of
`MuseClient` (lines 55-56), `null` modelled as `none`. -/
structure SeqState where
  lastIndex : Option ℤ
  lastTimestamp : Option ℚ
deriving DecidableEq

/-- The wraparound loop of `getTimestamp` (lines 164-167):
`while (lastIndex - eventIndex > 0x1000) eventIndex += 0x10000`. -/
def unwrap (lastIndex eventIndex : ℤ) : ℤ :=
  if h : lastIndex - eventIndex > 0x1000 then
    unwrap lastIndex (eventIndex + 0x10000)
  else
    eventIndex
termination_by (lastIndex - eventIndex).toNat
decreasing_by
  omega

/-- `MuseClient.getTimestamp` (lines 156-179). `now` stands for the value of
`new Date().getTime()` at this call (only read when the state is unseeded).
Returns the reading's timestamp together with the updated sequencing state. -/
def getTimestamp (now : ℚ) (eventIndex : ℤ) (s : SeqState) : ℚ × SeqState :=
  let s1 : SeqState :=
    if s.lastIndex = none ∨ s.lastTimestamp = none then
      { lastIndex := some eventIndex, lastTimestamp := some (now - READING_DELTA) }
    else s
  let li : ℤ := s1.lastIndex.getD eventIndex
  let lt : ℚ := s1.lastTimestamp.getD (now - READING_DELTA)
  let ei : ℤ := unwrap li eventIndex
  if ei = li then
    (lt, s1)
  else if ei > li then
    let lt2 : ℚ := lt + READING_DELTA * ((ei - li : ℤ) : ℚ)
    (lt2, { lastIndex := some ei, lastTimestamp := some lt2 })
  else
    (lt - READING_DELTA * ((li - ei : ℤ) : ℚ), s1)

/-- Successive calls of the reconstructor on one sequencing state: returns
the list of produced timestamps and the final state. -/
def runTimestamps (now : ℚ) (s : SeqState) : List ℤ → List ℚ × SeqState
  | [] => ([], s)
  | j :: rest =>
      let p := getTimestamp now j s
      let q := runTimestamps now p.2 rest
      (p.1 :: q.1, q.2)

/-- One EEG notification event: the electrode (channel index 0..4) it
arrives on and its 16-bit group index (`data.getUint16(0)`). -/
structure EEGEvent where
  electrode : ℕ
  index : ℤ
deriving DecidableEq

/-- The EEG multiplexer (lines 101-116): every arriving event, whatever its
electrode, calls `this.getTimestamp` against the ONE client-wide sequencing
state, and the merged stream carries `(electrode, timestamp)` pairs. -/
def runMux (now : ℚ) (s : SeqState) : List EEGEvent → List (ℕ × ℚ)
  | [] => []
  | e :: rest =>
      let p := getTimestamp now e.index s
      (e.electrode, p.1) :: runMux now p.2 rest

/-- The timestamps the merged stream assigns to one electrode's events. -/
def timestampsFor (c : ℕ) (out : List (ℕ × ℚ)) : List ℚ :=
  (out.filter (fun p => p.1 == c)).map Prod.snd

/-- Observable client lifecycle state: whether `this.gatt` is non-null,
the sequencing fields, whether the `gattserverdisconnected` handler armed by
`connect` (a `.first()` subscription) is still pending, and the log of
values emitted on `connectionStatus` (after its initial `false` seed). -/
structure ClientState where
  gatt : Bool
  lastIndex : Option ℤ
  lastTimestamp : Option ℚ
  handlerArmed : Bool
  log : List Bool
deriving DecidableEq

/-- `MuseClient.disconnect` (lines 147-154): guarded by `if (this.gatt)`;
clears the sequencing fields, requests the transport disconnect (which does
not change any client field synchronously — in particular it does NOT null
`this.gatt`), and emits `false`. -/
def disconnect (s : ClientState) : ClientState :=
  if s.gatt then
    { s with lastIndex := none, lastTimestamp := none, log := s.log ++ [false] }
  else s

/-- The `gattserverdisconnected` handler armed in `connect` (lines 70-73):
fires at most once (`.first()`), sets `this.gatt = null` and emits `false`.
It does not touch `lastIndex` / `lastTimestamp`. -/
def gattServerDisconnected (s : ClientState) : ClientState :=
  if s.handlerArmed then
    { s with gatt := false, handlerArmed := false, log := s.log ++ [false] }
  else s

/-- The channel-binding steps `connect` performs, in source order
(lines 76-115): control, telemetry, gyroscope, accelerometer, then the EEG
characteristics. -/
inductive BindStep
  | control
  | telemetry
  | gyroscope
  | accelerometer
  | eeg (channelIndex : ℕ)
deriving DecidableEq

/-- The binding order of `connect`: four fixed channels then
`channelCount = enableAux ? 5 : 4` EEG channels (lines 100-101). -/
def connectSteps (enableAux : Bool) : List BindStep :=
  [BindStep.control, BindStep.telemetry, BindStep.gyroscope, BindStep.accelerometer] ++
    (List.range (if enableAux then 5 else 4)).map BindStep.eeg

/-- Sequentially attempt the binding steps; the first failing step aborts
(a rejected `await` unwinds the whole async `connect`). -/
def bindAll (ok : BindStep → Bool) : List BindStep → Option BindStep
  | [] => none
  | step :: rest => if ok step then bindAll ok rest else some step

/-- `MuseClient.connect` (lines 58-118) with the transport acquisition
already succeeded: sets `this.gatt`, arms the disconnect handler, then runs
the binding steps; only if all succeed does it emit `true` as its last
statement (line 117). `ok` is the oracle saying which `getCharacteristic` /
subscribe steps succeed. Returns the failing step (if any) and the client
state after the call. Note it never resets `lastIndex` / `lastTimestamp`. -/
def connect (ok : BindStep → Bool) (enableAux : Bool) (s : ClientState) :
    Option BindStep × ClientState :=
  let s1 : ClientState := { s with gatt := true, handlerArmed := true }
  match bindAll ok (connectSteps enableAux) with
  | some step => (some step, s1)
  | none => (none, { s1 with log := s1.log ++ [true] })

/-- A command-write trace event: the write of `cmd` was issued, or the
write of `cmd` completed (its promise resolved). -/
inductive CmdEvent
  | issue (cmd : String)
  | complete (cmd : String)
deriving DecidableEq

/-- `controlChar.writeValue(encodeCommand cmd)` with `await`: the write is
issued and, because it is awaited, completes before the caller continues. -/
def writeValue (cmd : String) (trace : List CmdEvent) : List CmdEvent :=
  trace ++ [CmdEvent.issue cmd, CmdEvent.complete cmd]

/-- `MuseClient.sendCommand` (lines 120-122). -/
def sendCommand (cmd : String) (trace : List CmdEvent) : List CmdEvent :=
  writeValue cmd trace

/-- `MuseClient.pause` (lines 133-135): `sendCommand('h')`. -/
def pause (trace : List CmdEvent) : List CmdEvent :=
  sendCommand "h" trace

/-- `MuseClient.resume` (lines 137-139): `sendCommand('d')`. -/
def resume (trace : List CmdEvent) : List CmdEvent :=
  sendCommand "d" trace

/-- `MuseClient.start` (lines 124-131): `await pause()`, `await` write of
`'p20'`, `await` write of `'s'`, `await resume()`. -/
def start (trace : List CmdEvent) : List CmdEvent :=
  resume (writeValue "s" (writeValue "p20" (pause trace)))

/-- The value of `READING_DELTA` as a plain rational. -/
theorem READING_DELTA_eq : READING_DELTA = 375 / 8 := by
  norm_num [READING_DELTA, EEG_FREQUENCY, SAMPLES_PER_READING]

/-- The inter-group interval is positive. -/
theorem READING_DELTA_pos : 0 < READING_DELTA := by
  rw [READING_DELTA_eq]; norm_num

/-- If the unwrap guard fails at once, the loop is the identity. -/
theorem unwrap_eq_self (li ei : ℤ) (h : li - ei ≤ 0x1000) : unwrap li ei = ei := by
  unfold unwrap
  rw [dif_neg (by omega)]

/-- Postcondition of the unwrap loop: it exits after finitely many
iterations (`k` of them), having added `0x10000` exactly `k` times, and on
exit the guard fails. -/
theorem unwrap_spec (li ei : ℤ) :
    (∃ k : ℕ, unwrap li ei = ei + 0x10000 * k) ∧ li - unwrap li ei ≤ 0x1000 := by
  unfold unwrap
  by_cases h : li - ei > 0x1000
  · rw [dif_pos h]
    obtain ⟨⟨k, hk⟩, hle⟩ := unwrap_spec li (ei + 0x10000)
    exact ⟨⟨k + 1, by rw [hk]; push_cast; ring⟩, hle⟩
  · rw [dif_neg h]
    exact ⟨⟨0, by push_cast; ring⟩, by omega⟩
termination_by (li - ei).toNat
decreasing_by
  omega

/-- Unrolled form of `getTimestamp` on a seeded state: behaviour depends
only on how the unwrapped incoming index compares to `lastIndex`. -/
theorem getTimestamp_seeded (now : ℚ) (i j : ℤ) (t : ℚ) :
    getTimestamp now j ⟨some i, some t⟩ =
      if unwrap i j = i then (t, ⟨some i, some t⟩)
      else if unwrap i j > i then
        (t + READING_DELTA * ((unwrap i j - i : ℤ) : ℚ),
          ⟨some (unwrap i j), some (t + READING_DELTA * ((unwrap i j - i : ℤ) : ℚ))⟩)
      else (t - READING_DELTA * ((i - unwrap i j : ℤ) : ℚ), ⟨some i, some t⟩) := by
  unfold getTimestamp
  simp

/-- Seeding: on an unseeded state the call seeds `lastIndex = eventIndex`,
`lastTimestamp = now - READING_DELTA` and returns that timestamp (after
seeding, the unwrap loop is a no-op and the duplicate branch is taken). -/
theorem getTimestamp_fresh (now : ℚ) (j : ℤ) (s : SeqState)
    (h : s.lastIndex = none ∨ s.lastTimestamp = none) :
    getTimestamp now j s =
      (now - READING_DELTA, ⟨some j, some (now - READING_DELTA)⟩) := by
  unfold getTimestamp
  rw [if_pos h]
  simp [unwrap_eq_self j j (by omega)]

/-- Duplicate index: returns `lastTimestamp` unchanged, state unchanged. -/
theorem getTimestamp_dup (now : ℚ) (i : ℤ) (t : ℚ) :
    getTimestamp now i ⟨some i, some t⟩ = (t, ⟨some i, some t⟩) := by
  rw [getTimestamp_seeded, if_pos (unwrap_eq_self i i (by omega))]

/-- Forward index (no unwrap needed): advances the timestamp by
`READING_DELTA` per unit of index delta and stores the new pair. -/
theorem getTimestamp_forward (now : ℚ) (i j : ℤ) (t : ℚ) (hij : i < j) :
    getTimestamp now j ⟨some i, some t⟩ =
      (t + READING_DELTA * ((j - i : ℤ) : ℚ),
        ⟨some j, some (t + READING_DELTA * ((j - i : ℤ) : ℚ))⟩) := by
  have hu : unwrap i j = j := unwrap_eq_self i j (by omega)
  rw [getTimestamp_seeded, hu, if_neg (by omega), if_pos hij]

/-- Late (out-of-order, within the tolerance window) index: returns an
interpolated past timestamp and leaves the state unchanged. -/
theorem getTimestamp_late (now : ℚ) (i j : ℤ) (t : ℚ)
    (hji : j < i) (htol : i - j ≤ 0x1000) :
    getTimestamp now j ⟨some i, some t⟩ =
      (t - READING_DELTA * ((i - j : ℤ) : ℚ), ⟨some i, some t⟩) := by
  have hu : unwrap i j = j := unwrap_eq_self i j htol
  rw [getTimestamp_seeded, hu, if_neg (by omega), if_neg (by omega)]

/-- Closed form of a run from a seeded state along strictly increasing
indices: every produced timestamp is the seed timestamp plus
`READING_DELTA` times the index distance from the seed index. -/
theorem runTimestamps_seeded (now : ℚ) (idxs : List ℤ) :
    ∀ (i : ℤ) (t : ℚ), List.Chain' (· < ·) (i :: idxs) →
      (runTimestamps now ⟨some i, some t⟩ idxs).1 =
        idxs.map (fun j => t + READING_DELTA * ((j - i : ℤ) : ℚ)) := by
  induction idxs with
  | nil => intro i t _; simp [runTimestamps]
  | cons j rest ih =>
    intro i t hch
    rw [List.chain'_cons] at hch
    obtain ⟨hij, hch⟩ := hch
    simp only [runTimestamps, getTimestamp_forward now i j t hij]
    rw [ih j (t + READING_DELTA * ((j - i : ℤ) : ℚ)) hch]
    simp only [List.map_cons, List.cons.injEq, true_and]
    refine List.map_congr_left fun a _ => ?_
    push_cast
    ring

/-- Closed form of a run from the fresh (unseeded) state along strictly
increasing indices: the first call returns `now - READING_DELTA` and every
timestamp is that seed value plus `READING_DELTA` times the index distance
from the first index. -/
theorem runTimestamps_fresh (now : ℚ) (j : ℤ) (rest : List ℤ)
    (h : List.Chain' (· < ·) (j :: rest)) :
    (runTimestamps now ⟨none, none⟩ (j :: rest)).1 =
      (j :: rest).map
        (fun k => (now - READING_DELTA) + READING_DELTA * ((k - j : ℤ) : ℚ)) := by
  simp only [runTimestamps, getTimestamp_fresh now j ⟨none, none⟩ (Or.inl rfl)]
  rw [runTimestamps_seeded now rest j (now - READING_DELTA) h]
  simp

/-- C5: with stored `last_index = 0xFFF0` and incoming
`group_index = 0x0005`, the reconstructor treats the jump as a wraparound:
the unwrap loop adds `0x10000` (once), giving unwrapped index `0x10005`, a
forward delta of `0x15 = 21` groups, and the timestamp advances by
`21 * READING_DELTA`, the state being updated to the new pair. -/
theorem C5_wraparound (now t : ℚ) :
    unwrap 0xFFF0 0x0005 = 0x10005 ∧
    getTimestamp now 0x0005 ⟨some 0xFFF0, some t⟩ =
      (t + READING_DELTA * 21,
        ⟨some 0x10005, some (t + READING_DELTA * 21)⟩) := by
  have hu : unwrap 0xFFF0 0x0005 = 0x10005 := by
    unfold unwrap
    rw [dif_pos (by omega)]
    rw [show (0x0005 : ℤ) + 0x10000 = 0x10005 by norm_num]
    exact unwrap_eq_self _ _ (by omega)
  refine ⟨hu, ?_⟩
  rw [getTimestamp_seeded, hu, if_neg (by omega), if_pos (by omega)]
  norm_num

/-- C6: for every strictly increasing sequence of group indices presented
to the reconstructor from the fresh state (so no wraparound is involved),
the returned timestamps are strictly increasing, and consecutive
timestamps differ by exactly `READING_DELTA` times the difference of the
corresponding indices. -/
theorem C6_strictly_increasing (now : ℚ) (idxs : List ℤ)
    (h : List.Chain' (· < ·) idxs) :
    List.Chain' (· < ·) (runTimestamps now ⟨none, none⟩ idxs).1 ∧
    ∀ (k : ℕ) (a b : ℤ), idxs[k]? = some a → idxs[k + 1]? = some b →
      ∃ ta tb : ℚ, (runTimestamps now ⟨none, none⟩ idxs).1[k]? = some ta ∧
        (runTimestamps now ⟨none, none⟩ idxs).1[k + 1]? = some tb ∧
        tb - ta = READING_DELTA * ((b - a : ℤ) : ℚ) := by
  cases idxs with
  | nil =>
    refine ⟨by simp [runTimestamps], ?_⟩
    intro k a b ha _
    simp at ha
  | cons j rest =>
    rw [runTimestamps_fresh now j rest h]
    constructor
    · rw [List.chain'_map]
      refine List.Chain'.imp (fun a b hab => ?_) h
      show (now - READING_DELTA) + READING_DELTA * ((a - j : ℤ) : ℚ) <
        (now - READING_DELTA) + READING_DELTA * ((b - j : ℤ) : ℚ)
      have hd : ((a - j : ℤ) : ℚ) < ((b - j : ℤ) : ℚ) := Int.cast_lt.mpr (by omega)
      have hm := mul_lt_mul_of_pos_left hd READING_DELTA_pos
      linarith
    · intro k a b ha hb
      refine ⟨(now - READING_DELTA) + READING_DELTA * ((a - j : ℤ) : ℚ),
        (now - READING_DELTA) + READING_DELTA * ((b - j : ℤ) : ℚ), ?_, ?_, ?_⟩
      · rw [List.getElem?_map, ha]
        rfl
      · rw [List.getElem?_map, hb]
        rfl
      · push_cast
        ring

/-- Witness for C6 on the concrete index sequence `[3, 5, 10]`. -/
theorem C6_witness :
    List.Chain' (· < ·) (runTimestamps 1000 ⟨none, none⟩ [3, 5, 10]).1 :=
  (C6_strictly_increasing 1000 [3, 5, 10]
    (by norm_num [List.chain'_cons, List.chain'_singleton])).1

/-- C7: a late, out-of-order index (`group_index < last_index` within the
`0x1000` tolerance window) returns
`last_timestamp - READING_DELTA * (last_index - group_index)`, which is
strictly less than `last_timestamp`, and leaves both `lastIndex` and
`lastTimestamp` unchanged. -/
theorem C7_late_frame (now : ℚ) (i j : ℤ) (t : ℚ)
    (hji : j < i) (htol : i - j ≤ 0x1000) :
    getTimestamp now j ⟨some i, some t⟩ =
      (t - READING_DELTA * ((i - j : ℤ) : ℚ), ⟨some i, some t⟩) ∧
    (getTimestamp now j ⟨some i, some t⟩).1 < t := by
  have hl := getTimestamp_late now i j t hji htol
  refine ⟨hl, ?_⟩
  rw [hl]
  have hd : (0 : ℚ) < ((i - j : ℤ) : ℚ) :=
    Int.cast_pos.mpr (by omega : (0 : ℤ) < i - j)
  have := mul_pos READING_DELTA_pos hd
  dsimp only
  linarith

/-- Witness for C7 at `last_index = 10`, `group_index = 7`,
`last_timestamp = 100`. -/
theorem C7_witness :
    getTimestamp 0 7 ⟨some 10, some 100⟩ =
      (100 - READING_DELTA * ((10 - 7 : ℤ) : ℚ), ⟨some 10, some 100⟩) ∧
    (getTimestamp 0 7 ⟨some 10, some 100⟩).1 < 100 :=
  C7_late_frame 0 10 7 100 (by decide) (by decide)

/-- C8: on a seeded state, no call of the reconstructor ever moves the
stored `lastTimestamp` backward: whatever index arrives, the stored value
after the call is `some t2` with `t ≤ t2` (duplicates and late indices
leave it unchanged, forward indices add a positive multiple of
`READING_DELTA`); together with the fact that seeding merely sets it,
the stored forward clock is non-decreasing across every successive call. -/
theorem C8_lastTimestamp_monotone (now : ℚ) (j i : ℤ) (t : ℚ) :
    ∃ t2 : ℚ,
      ((getTimestamp now j ⟨some i, some t⟩).2).lastTimestamp = some t2 ∧
        t ≤ t2 := by
  rw [getTimestamp_seeded]
  by_cases h1 : unwrap i j = i
  · rw [if_pos h1]
    exact ⟨t, rfl, le_refl t⟩
  · rw [if_neg h1]
    by_cases h2 : unwrap i j > i
    · rw [if_pos h2]
      refine ⟨_, rfl, ?_⟩
      have hd : (0 : ℚ) ≤ ((unwrap i j - i : ℤ) : ℚ) := by
        exact_mod_cast (by omega : (0 : ℤ) ≤ unwrap i j - i)
      have := mul_nonneg READING_DELTA_pos.le hd
      linarith
    · rw [if_neg h2]
      exact ⟨t, rfl, le_refl t⟩

/-- C10: the unwrap loop terminates on every pair of non-negative inputs
(the definition of `unwrap` carries the termination measure
`(lastIndex - eventIndex).toNat`, which each iteration strictly
decreases); after its finitely many iterations — `k` of them, each adding
`0x10000` — the guard `lastIndex - eventIndex > 0x1000` has failed, so the
reconstructor is a total function of its state and inputs. -/
theorem C10_unwrap_total (li ei : ℤ) (_h1 : 0 ≤ li) (_h2 : 0 ≤ ei) :
    (∃ k : ℕ, unwrap li ei = ei + 0x10000 * k) ∧ li - unwrap li ei ≤ 0x1000 :=
  unwrap_spec li ei

/-- Witness for C10 at the wraparound pair `(0xFFF0, 0x0005)`. -/
theorem C10_witness :
    (∃ k : ℕ, unwrap 0xFFF0 0x0005 = 0x0005 + 0x10000 * k) ∧
      (0xFFF0 : ℤ) - unwrap 0xFFF0 0x0005 ≤ 0x1000 :=
  C10_unwrap_total 0xFFF0 0x0005 (by decide) (by decide)

/-- C1 counterexample: channel 0's event with group index 10, processed
alone, gets timestamp `now - READING_DELTA`; with a channel 1 event of
index 100 delivered before it, the same channel 0 event gets a different
timestamp (the shared `lastIndex`/`lastTimestamp` pair was moved by the
other channel). So timestamps are NOT independent of other channels. -/
theorem C1_counterexample :
    timestampsFor 0 (runMux 0 ⟨none, none⟩ [⟨0, 10⟩]) ≠
      timestampsFor 0 (runMux 0 ⟨none, none⟩ [⟨1, 100⟩, ⟨0, 10⟩]) := by
  have e1 : getTimestamp 0 10 (⟨none, none⟩ : SeqState) =
      (0 - READING_DELTA, ⟨some 10, some (0 - READING_DELTA)⟩) :=
    getTimestamp_fresh 0 10 ⟨none, none⟩ (Or.inl rfl)
  have e2 : getTimestamp 0 100 (⟨none, none⟩ : SeqState) =
      (0 - READING_DELTA, ⟨some 100, some (0 - READING_DELTA)⟩) :=
    getTimestamp_fresh 0 100 ⟨none, none⟩ (Or.inl rfl)
  have e3 : getTimestamp 0 10 (⟨some 100, some (0 - READING_DELTA)⟩ : SeqState) =
      ((0 - READING_DELTA) - READING_DELTA * ((100 - 10 : ℤ) : ℚ),
        ⟨some 100, some (0 - READING_DELTA)⟩) :=
    getTimestamp_late 0 100 10 (0 - READING_DELTA) (by omega) (by omega)
  have hL : runMux 0 ⟨none, none⟩ [⟨0, 10⟩] = [(0, 0 - READING_DELTA)] := by
    simp only [runMux, e1]
  have hR : runMux 0 ⟨none, none⟩ [⟨1, 100⟩, ⟨0, 10⟩] =
      [(1, 0 - READING_DELTA),
        (0, (0 - READING_DELTA) - READING_DELTA * ((100 - 10 : ℤ) : ℚ))] := by
    simp only [runMux, e2, e3]
  rw [hL, hR]
  simp only [timestampsFor, List.filter, List.map]
  norm_num [READING_DELTA_eq]

/-- C1 (amended): all electrode channels share the client's single
`lastIndex`/`lastTimestamp` pair, so the merged stream's timestamps are
exactly those of the one shared reconstructor applied to the full
interleaved sequence of group indices — each event reads and updates the
same state whatever its electrode is, and a channel's timestamps depend on
the indices interleaved from every other channel (not only its own). -/
theorem C1_shared_state (now : ℚ) (s : SeqState) (events : List EEGEvent) :
    (runMux now s events).map Prod.snd =
      (runTimestamps now s (events.map EEGEvent.index)).1 := by
  induction events generalizing s with
  | nil => rfl
  | cons e rest ih => simp [runMux, runTimestamps, ih]

/-- `connect` never changes the sequencing fields of the client. -/
theorem connect_preserves_seq (ok : BindStep → Bool) (enableAux : Bool)
    (s : ClientState) :
    ((connect ok enableAux s).2).lastIndex = s.lastIndex ∧
      ((connect ok enableAux s).2).lastTimestamp = s.lastTimestamp := by
  unfold connect
  cases hb : bindAll ok (connectSteps enableAux) <;> exact ⟨rfl, rfl⟩

/-- C2 counterexample: from a connected session whose shared sequencing
state holds `lastIndex = some 5`, an asynchronous transport-level
disconnect (the `gattserverdisconnected` handler) followed by a successful
`connect()` leaves `lastIndex = some 5` — the prior session's sequencing
state leaks into the new session instead of being reset to `none`. -/
theorem C2_counterexample :
    ((connect (fun _ => true) false
        (gattServerDisconnected ⟨true, some 5, some 100, true, []⟩)).2).lastIndex
      = some 5 ∧
    ((connect (fun _ => true) false
        (gattServerDisconnected ⟨true, some 5, some 100, true, []⟩)).2).lastIndex
      ≠ none := by
  decide

/-- C2 (amended): only the explicit `disconnect()` call clears the
sequencing state; the asynchronous transport-level disconnect handler
leaves `lastIndex`/`lastTimestamp` untouched (it only nulls the gatt
handle and emits `false`), and `connect()` does not reset them either, so
after an async disconnect a new session starts with the previous session's
last-seen index and timestamp. -/
theorem C2_amended (s : ClientState) (ok : BindStep → Bool) (enableAux : Bool)
    (hg : s.gatt = true) :
    (disconnect s).lastIndex = none ∧ (disconnect s).lastTimestamp = none ∧
    (gattServerDisconnected s).lastIndex = s.lastIndex ∧
    (gattServerDisconnected s).lastTimestamp = s.lastTimestamp ∧
    ((connect ok enableAux s).2).lastIndex = s.lastIndex ∧
    ((connect ok enableAux s).2).lastTimestamp = s.lastTimestamp := by
  refine ⟨?_, ?_, ?_, ?_, (connect_preserves_seq ok enableAux s).1,
    (connect_preserves_seq ok enableAux s).2⟩
  · simp [disconnect, hg]
  · simp [disconnect, hg]
  · unfold gattServerDisconnected
    split <;> rfl
  · unfold gattServerDisconnected
    split <;> rfl

/-- Witness for C2 (amended) at a concrete connected state. -/
theorem C2_witness :
    (disconnect ⟨true, some 5, some 100, true, []⟩).lastIndex = none ∧
    (disconnect ⟨true, some 5, some 100, true, []⟩).lastTimestamp = none ∧
    (gattServerDisconnected ⟨true, some 5, some 100, true, []⟩).lastIndex = some 5 ∧
    (gattServerDisconnected ⟨true, some 5, some 100, true, []⟩).lastTimestamp
      = some 100 ∧
    ((connect (fun _ => true) false
        ⟨true, some 5, some 100, true, []⟩).2).lastIndex = some 5 ∧
    ((connect (fun _ => true) false
        ⟨true, some 5, some 100, true, []⟩).2).lastTimestamp = some 100 :=
  C2_amended ⟨true, some 5, some 100, true, []⟩ (fun _ => true) false rfl

/-- C3 counterexample: from a connected session, two immediately
successive `disconnect()` calls (no transport disconnect event in
between — the handler has not yet fired, so `this.gatt` is still non-null
on the second call) emit `false` twice, not exactly once. -/
theorem C3_counterexample :
    (disconnect (disconnect ⟨true, none, none, true, []⟩)).log = [false, false] ∧
    ((disconnect (disconnect ⟨true, none, none, true, []⟩)).log.count false) ≠ 1 := by
  decide

/-- C3 (amended): `disconnect()` emits `false` on every call made while
`this.gatt` is non-null — and the call itself never nulls `this.gatt`
(only the asynchronous `gattserverdisconnected` handler does) — so two
successive calls with no intervening transport disconnect event emit
`false` twice; `disconnect()` is a no-op only once `this.gatt` is null. -/
theorem C3_amended (s s2 : ClientState) (hg : s.gatt = true)
    (h2 : s2.gatt = false) :
    (disconnect s).log = s.log ++ [false] ∧
    (disconnect (disconnect s)).log = s.log ++ [false, false] ∧
    disconnect s2 = s2 := by
  have h1 : disconnect s =
      { s with lastIndex := none, lastTimestamp := none, log := s.log ++ [false] } := by
    unfold disconnect
    rw [if_pos hg]
  refine ⟨by rw [h1], ?_, ?_⟩
  · rw [h1]
    unfold disconnect
    simp [hg]
  · unfold disconnect
    simp [h2]

/-- Witness for C3 (amended) at concrete connected/disconnected states. -/
theorem C3_witness :
    (disconnect ⟨true, none, none, true, []⟩).log = [] ++ [false] ∧
    (disconnect (disconnect ⟨true, none, none, true, []⟩)).log
      = [] ++ [false, false] ∧
    disconnect ⟨false, none, none, false, []⟩ = ⟨false, none, none, false, []⟩ :=
  C3_amended ⟨true, none, none, true, []⟩ ⟨false, none, none, false, []⟩ rfl rfl

/-- If the sequential binding returns a failing step, that step's bind
attempt indeed failed. -/
theorem bindAll_eq_some (ok : BindStep → Bool) (l : List BindStep)
    (st : BindStep) (h : bindAll ok l = some st) : ok st = false := by
  induction l with
  | nil => simp [bindAll] at h
  | cons a rest ih =>
    unfold bindAll at h
    by_cases hk : ok a
    · rw [if_pos hk] at h
      exact ih h
    · rw [if_neg hk] at h
      cases h
      exact Bool.not_eq_true _ |>.mp hk

/-- C4: if any channel-binding step of `connect` fails, the whole connect
aborts with that failing step and the `connectionStatus` stream receives
no emission at all during the attempt — in particular it never emits
`true`, so the session's observable connection state stays `false`
(Disconnected) and no caller ever observes a partial Connected state. -/
theorem C4_connect_failure (ok : BindStep → Bool) (enableAux : Bool)
    (s : ClientState) (step : BindStep)
    (h : (connect ok enableAux s).1 = some step) :
    ok step = false ∧ ((connect ok enableAux s).2).log = s.log := by
  unfold connect at h ⊢
  cases hb : bindAll ok (connectSteps enableAux) with
  | none =>
    rw [hb] at h
    simp at h
  | some st =>
    rw [hb] at h
    simp at h
    subst h
    exact ⟨bindAll_eq_some ok _ st hb, by simp⟩

/-- Witness for C4: the telemetry binding fails, connect aborts, no
connection-state emission happens. -/
theorem C4_witness :
    (fun st => st == BindStep.control) BindStep.telemetry = false ∧
    ((connect (fun st => st == BindStep.control) false
        ⟨false, none, none, false, []⟩).2).log = [] :=
  C4_connect_failure (fun st => st == BindStep.control) false
    ⟨false, none, none, false, []⟩ BindStep.telemetry (by decide)

/-- C9: `start()` performs exactly four command writes, in the strict
order pause (`'h'`), preset selection (`'p20'`), start streaming (`'s'`),
resume (`'d'`); since every write is awaited, each write's completion
event precedes the issue event of the next command in the trace. -/
theorem C9_start_order (trace : List CmdEvent) :
    start trace = trace ++
      [CmdEvent.issue "h", CmdEvent.complete "h",
       CmdEvent.issue "p20", CmdEvent.complete "p20",
       CmdEvent.issue "s", CmdEvent.complete "s",
       CmdEvent.issue "d", CmdEvent.complete "d"] := by
  simp [start, pause, resume, sendCommand, writeValue]

end Muse
